import Mathlib

/-!
Verification of the safekeeper WAL service (`src/walkeeper/src/wal_service.rs`).

The development shallowly embeds the pure core of the service:
the wire codec (`Serializer` impls), the `NodeId` ordering used by the
Paxos-style vote, the vote phase of `Connection::receive_wal`, the body of
its streaming loop, `System::notify_wal_senders`, the segment writer
`Connection::write_wal_file` over a functional file-system model,
`Connection::handle_identify_system`, and `parse_hex_str` /
`handle_start_replication` LSN parsing.

Machine integers are modelled as `Nat`; wrap-around is written explicitly
with `% 2 ^ w` where the Rust code can overflow.  Byte strings are
`List Nat` with every element a byte value.
-/

namespace WalService

/-! ### Byte-level codec

`bytes::BufMut`/`Buf` primitives used by the `Serializer` impls:
`put_u32_le`, `put_u64_le`, `put_u128_le` write little-endian,
`put_u64` writes big-endian; the `get_*` counterparts read them back.
-/

/-- Little-endian byte encoding of `n`, `w` bytes wide (as in `put_uNN_le`). -/
def leBytes : Nat → Nat → List Nat
  | 0, _ => []
  | w + 1, n => n % 256 :: leBytes w (n / 256)

/-- Big-endian byte encoding of `n`, `w` bytes wide (as in `put_u64`). -/
def beBytes : Nat → Nat → List Nat
  | 0, _ => []
  | w + 1, n => n / 256 ^ w % 256 :: beBytes w n

/-- Little-endian reader (as in `get_uNN_le`): consumes `w` bytes. -/
def readLE : Nat → List Nat → Nat × List Nat
  | 0, bs => (0, bs)
  | _ + 1, [] => (0, [])
  | w + 1, b :: rest =>
    let (v, r) := readLE w rest
    (b + 256 * v, r)

/-- Big-endian reader accumulator (as in `get_u64`). -/
def readBEAux : Nat → Nat → List Nat → Nat × List Nat
  | acc, 0, bs => (acc, bs)
  | acc, _ + 1, [] => (acc, [])
  | acc, w + 1, b :: rest => readBEAux (acc * 256 + b) w rest

/-- Big-endian reader: consumes `w` bytes. -/
def readBE (w : Nat) (bs : List Nat) : Nat × List Nat :=
  readBEAux 0 w bs

/-! ### Wire records

The seven fixed-layout records of the proposer/safekeeper protocol.
All integer fields are machine integers in the Rust source (`u32`, `u64`,
`u128`); they are modelled as `Nat` together with a well-formedness
predicate bounding each field by its width.
-/

structure NodeId where
  term : Nat
  uuid : Nat
  deriving DecidableEq, Repr

structure ServerInfo where
  protocol_version : Nat
  pg_version : Nat
  node_id : NodeId
  system_id : Nat
  wal_end : Nat
  timeline : Nat
  wal_seg_size : Nat
  deriving DecidableEq, Repr

structure RequestVote where
  node_id : NodeId
  vcl : Nat
  epoch : Nat
  deriving DecidableEq, Repr

structure SafeKeeperInfo where
  magic : Nat
  format_version : Nat
  epoch : Nat
  server : ServerInfo
  commit_lsn : Nat
  flush_lsn : Nat
  restart_lsn : Nat
  deriving DecidableEq, Repr

structure HotStandbyFeedback where
  ts : Nat
  xmin : Nat
  catalog_xmin : Nat
  deriving DecidableEq, Repr

structure SafeKeeperRequest where
  sender_id : NodeId
  begin_lsn : Nat
  end_lsn : Nat
  restart_lsn : Nat
  commit_lsn : Nat
  deriving DecidableEq, Repr

structure SafeKeeperResponse where
  epoch : Nat
  flush_lsn : Nat
  hs_feedback : HotStandbyFeedback
  deriving DecidableEq, Repr

def u32max : Nat := 2 ^ 32
def u64max : Nat := 2 ^ 64
def u128max : Nat := 2 ^ 128

def NodeId.wf (x : NodeId) : Prop := x.term < u64max ∧ x.uuid < u128max

def ServerInfo.wf (x : ServerInfo) : Prop :=
  x.protocol_version < u32max ∧ x.pg_version < u32max ∧ x.node_id.wf ∧
  x.system_id < u64max ∧ x.wal_end < u64max ∧ x.timeline < u32max ∧
  x.wal_seg_size < u32max

def RequestVote.wf (x : RequestVote) : Prop :=
  x.node_id.wf ∧ x.vcl < u64max ∧ x.epoch < u64max

def SafeKeeperInfo.wf (x : SafeKeeperInfo) : Prop :=
  x.magic < u32max ∧ x.format_version < u32max ∧ x.epoch < u64max ∧
  x.server.wf ∧ x.commit_lsn < u64max ∧ x.flush_lsn < u64max ∧
  x.restart_lsn < u64max

def HotStandbyFeedback.wf (x : HotStandbyFeedback) : Prop :=
  x.ts < u64max ∧ x.xmin < u64max ∧ x.catalog_xmin < u64max

def SafeKeeperRequest.wf (x : SafeKeeperRequest) : Prop :=
  x.sender_id.wf ∧ x.begin_lsn < u64max ∧ x.end_lsn < u64max ∧
  x.restart_lsn < u64max ∧ x.commit_lsn < u64max

def SafeKeeperResponse.wf (x : SafeKeeperResponse) : Prop :=
  x.epoch < u64max ∧ x.flush_lsn < u64max ∧ x.hs_feedback.wf

instance : DecidablePred NodeId.wf := fun _ => by unfold NodeId.wf; infer_instance
instance : DecidablePred ServerInfo.wf := fun _ => by unfold ServerInfo.wf; infer_instance
instance : DecidablePred RequestVote.wf := fun _ => by unfold RequestVote.wf; infer_instance
instance : DecidablePred SafeKeeperInfo.wf := fun _ => by unfold SafeKeeperInfo.wf; infer_instance
instance : DecidablePred HotStandbyFeedback.wf := fun _ => by unfold HotStandbyFeedback.wf; infer_instance
instance : DecidablePred SafeKeeperRequest.wf := fun _ => by unfold SafeKeeperRequest.wf; infer_instance
instance : DecidablePred SafeKeeperResponse.wf := fun _ => by unfold SafeKeeperResponse.wf; infer_instance

/-! `impl Serializer for NodeId`: the `uuid` is written first, little-endian
(`put_u128_le`), then the `term`, big-endian (`put_u64`). -/

def NodeId.pack (x : NodeId) : List Nat :=
  leBytes 16 x.uuid ++ beBytes 8 x.term

def NodeId.unpack (bs : List Nat) : NodeId × List Nat :=
  let (u, r1) := readLE 16 bs
  let (t, r2) := readBE 8 r1
  (⟨t, u⟩, r2)

/-- `impl Serializer for ServerInfo`: all fields little-endian except the
nested `NodeId`. -/
def ServerInfo.pack (x : ServerInfo) : List Nat :=
  leBytes 4 x.protocol_version ++ leBytes 4 x.pg_version ++ x.node_id.pack ++
  leBytes 8 x.system_id ++ leBytes 8 x.wal_end ++ leBytes 4 x.timeline ++
  leBytes 4 x.wal_seg_size

def ServerInfo.unpack (bs : List Nat) : ServerInfo × List Nat :=
  let (pv, r1) := readLE 4 bs
  let (gv, r2) := readLE 4 r1
  let (nid, r3) := NodeId.unpack r2
  let (sid, r4) := readLE 8 r3
  let (we, r5) := readLE 8 r4
  let (tl, r6) := readLE 4 r5
  let (ws, r7) := readLE 4 r6
  (⟨pv, gv, nid, sid, we, tl, ws⟩, r7)

def RequestVote.pack (x : RequestVote) : List Nat :=
  x.node_id.pack ++ leBytes 8 x.vcl ++ leBytes 8 x.epoch

def RequestVote.unpack (bs : List Nat) : RequestVote × List Nat :=
  let (nid, r1) := NodeId.unpack bs
  let (v, r2) := readLE 8 r1
  let (e, r3) := readLE 8 r2
  (⟨nid, v, e⟩, r3)

def SafeKeeperInfo.pack (x : SafeKeeperInfo) : List Nat :=
  leBytes 4 x.magic ++ leBytes 4 x.format_version ++ leBytes 8 x.epoch ++
  x.server.pack ++ leBytes 8 x.commit_lsn ++ leBytes 8 x.flush_lsn ++
  leBytes 8 x.restart_lsn

def SafeKeeperInfo.unpack (bs : List Nat) : SafeKeeperInfo × List Nat :=
  let (mg, r1) := readLE 4 bs
  let (fv, r2) := readLE 4 r1
  let (ep, r3) := readLE 8 r2
  let (srv, r4) := ServerInfo.unpack r3
  let (cl, r5) := readLE 8 r4
  let (fl, r6) := readLE 8 r5
  let (rl, r7) := readLE 8 r6
  (⟨mg, fv, ep, srv, cl, fl, rl⟩, r7)

def HotStandbyFeedback.pack (x : HotStandbyFeedback) : List Nat :=
  leBytes 8 x.ts ++ leBytes 8 x.xmin ++ leBytes 8 x.catalog_xmin

def HotStandbyFeedback.unpack (bs : List Nat) : HotStandbyFeedback × List Nat :=
  let (t, r1) := readLE 8 bs
  let (x1, r2) := readLE 8 r1
  let (c, r3) := readLE 8 r2
  (⟨t, x1, c⟩, r3)

def SafeKeeperRequest.pack (x : SafeKeeperRequest) : List Nat :=
  x.sender_id.pack ++ leBytes 8 x.begin_lsn ++ leBytes 8 x.end_lsn ++
  leBytes 8 x.restart_lsn ++ leBytes 8 x.commit_lsn

def SafeKeeperRequest.unpack (bs : List Nat) : SafeKeeperRequest × List Nat :=
  let (nid, r1) := NodeId.unpack bs
  let (b, r2) := readLE 8 r1
  let (e, r3) := readLE 8 r2
  let (rl, r4) := readLE 8 r3
  let (cl, r5) := readLE 8 r4
  (⟨nid, b, e, rl, cl⟩, r5)

def SafeKeeperResponse.pack (x : SafeKeeperResponse) : List Nat :=
  leBytes 8 x.epoch ++ leBytes 8 x.flush_lsn ++ x.hs_feedback.pack

def SafeKeeperResponse.unpack (bs : List Nat) : SafeKeeperResponse × List Nat :=
  let (e, r1) := readLE 8 bs
  let (fl, r2) := readLE 8 r1
  let (hs, r3) := HotStandbyFeedback.unpack r2
  (⟨e, fl, hs⟩, r3)


/-! ### NodeId ordering

Rust `#[derive(Ord)]` on `struct NodeId { term, uuid }` compares
lexicographically in field order: `term` first, then `uuid`. -/

def NodeId.lt (a b : NodeId) : Prop :=
  a.term < b.term ∨ (a.term = b.term ∧ a.uuid < b.uuid)

instance : DecidableRel NodeId.lt := fun _ _ => by unfold NodeId.lt; infer_instance

/-- Unsigned byte-string (memcmp) comparison of two packed records:
lexicographic order on the byte lists. -/
def bytesLt (a b : List Nat) : Prop := List.Lex (· < ·) a b

instance : DecidableRel bytesLt := fun _ _ => by unfold bytesLt; infer_instance

/-! ### Handshake: merge and vote (`Connection::receive_wal`, handshake part) -/

/-- Merging the received `ServerInfo` into the persisted info, preserving the
locally stored `node_id` (`wal_service.rs` lines 635-638). -/
def mergeServerInfo (my_info : SafeKeeperInfo) (server_info : ServerInfo) :
    SafeKeeperInfo :=
  { my_info with server := { server_info with node_id := my_info.server.node_id } }

/-- Outcome of the vote phase.  `reject` carries the bytes sent back before the
connection is closed with an error (no control-file write happens on this
path); `accept` carries the updated info, the `sync` flag passed to
`save_control_file`, and the echoed bytes. -/
inductive VoteOutcome where
  | reject (sent : List Nat)
  | accept (newInfo : SafeKeeperInfo) (savedSync : Bool) (echo : List Nat)
  deriving DecidableEq, Repr

/-- The vote phase of `Connection::receive_wal` (lines 651-675): a Paxos
safety check against the stored `node_id`, then either rejection (send own
`node_id`, error out) or acceptance (store `prop.node_id`, persist with
`fsync=true`, echo `prop.node_id`). -/
def voteStage (my_info : SafeKeeperInfo) (prop : RequestVote) : VoteOutcome :=
  if NodeId.lt prop.node_id my_info.server.node_id then
    .reject my_info.server.node_id.pack
  else
    .accept { my_info with
              server := { my_info.server with node_id := prop.node_id } }
      true prop.node_id.pack

/-! ### Tenant state: `System::notify_wal_senders` -/

/-- `System::notify_wal_senders`, acting on the guarded `commit_lsn`: returns
the new `commit_lsn` and whether the waiters were broadcast to. -/
def notifyWalSenders (commit_lsn new_commit_lsn : Nat) : Nat × Bool :=
  if commit_lsn < new_commit_lsn then (new_commit_lsn, true)
  else (commit_lsn, false)

/-! ### WAL segment writer (`Connection::write_wal_file`)

The tenant directory is modelled as a map from segment number to segment
file.  A segment file records whether it currently lives under the
`.partial` name, and its contents as a byte function on `[0, wal_seg_size)`.
A freshly created `.partial` file is pre-filled with
`wal_seg_size / XLOG_BLCKSZ` zero blocks of `XLOG_BLCKSZ` bytes; for
`wal_seg_size` a multiple of `XLOG_BLCKSZ` (the invariant stated in the
spec and assumed by the claims) that zeroes the entire segment, which is
what the `fun _ => 0` content expresses. -/

def XLOG_BLCKSZ : Nat := 8192

def MAX_SEND_SIZE : Nat := XLOG_BLCKSZ * 16

def XLogSegmentOffset (pos wal_seg_size : Nat) : Nat := pos % wal_seg_size

def XLByteToSeg (pos wal_seg_size : Nat) : Nat := pos / wal_seg_size

structure SegFile where
  partialFlag : Bool
  data : Nat → Nat

def FS : Type := Nat → Option SegFile

/-- Chunk size for one iteration of the `write_wal_file` loop: clipped at the
segment boundary. -/
def bytesToWrite (wal_seg_size xlogoff bytes_left : Nat) : Nat :=
  if xlogoff + bytes_left > wal_seg_size then wal_seg_size - xlogoff
  else bytes_left

/-- Opening the target segment: an existing (finalized or `.partial`) file is
reused; otherwise a fresh zero-filled `.partial` file is created. -/
def openOrCreateSeg (fs : FS) (segno : Nat) : SegFile :=
  match fs segno with
  | some f => f
  | none => ⟨true, fun _ => 0⟩

/-- The `while bytes_left != 0` loop of `Connection::write_wal_file`.  The
`fuel` argument bounds the number of iterations; `writeWalFile` passes
`buf.length`, which suffices because every iteration writes at least one
byte when `wal_seg_size > 0`. -/
def writeWalLoop (wal_seg_size : Nat) : Nat → FS → Nat → List Nat → FS
  | 0, fs, _, _ => fs
  | fuel + 1, fs, start_pos, buf =>
    if buf.isEmpty then fs
    else
      let xlogoff := XLogSegmentOffset start_pos wal_seg_size
      let c := bytesToWrite wal_seg_size xlogoff buf.length
      let segno := XLByteToSeg start_pos wal_seg_size
      let f := openOrCreateSeg fs segno
      let data2 : Nat → Nat := fun off =>
        if xlogoff ≤ off ∧ off < xlogoff + c then (buf.take c).getD (off - xlogoff) 0
        else f.data off
      let flag2 : Bool :=
        if XLogSegmentOffset (start_pos + c) wal_seg_size = 0 then false
        else f.partialFlag
      let fs2 : FS := fun s => if s = segno then some ⟨flag2, data2⟩ else fs s
      writeWalLoop wal_seg_size fuel fs2 (start_pos + c) (buf.drop c)

/-- `Connection::write_wal_file(start_pos, timeline, wal_seg_size, buf)`. -/
def writeWalFile (fs : FS) (start_pos wal_seg_size : Nat) (buf : List Nat) : FS :=
  writeWalLoop wal_seg_size buf.length fs start_pos buf

/-- Reading one byte of the logical WAL stream back from the tenant
directory (a missing segment reads as zero, matching the pre-zeroing
contract used by the WAL scanner). -/
def readWal (fs : FS) (wal_seg_size pos : Nat) : Nat :=
  match fs (XLByteToSeg pos wal_seg_size) with
  | some f => f.data (XLogSegmentOffset pos wal_seg_size)
  | none => 0

/-! ### Ingest streaming loop (`Connection::receive_wal`, main loop) -/

def END_OF_STREAM : Nat := 0

/-- Connection-local ingest state across loop iterations: the connection's
`my_info` copy and the lazily flushed restart LSN. -/
structure IngestState where
  my_info : SafeKeeperInfo
  flushed_restart_lsn : Nat
  deriving DecidableEq, Repr

/-- Result of one successful loop iteration. -/
structure StepOk where
  st : IngestState
  fs : FS
  synced : Bool
  resp : SafeKeeperResponse
  notifyArg : Nat

/-- One iteration of the main loop of `Connection::receive_wal`
(lines 691-761).  `prop` is the accepted vote, `hsf` the tenant's current
aggregated hot-standby feedback, `body` the message payload read from the
socket.  Returns `.ok none` on the end-of-stream sentinel, `.error` on the
connection-fatal paths. -/
def receiveWalStep (prop : RequestVote) (wal_seg_size : Nat)
    (hsf : HotStandbyFeedback) (st : IngestState) (fs : FS)
    (req : SafeKeeperRequest) (body : List Nat) :
    Except String (Option StepOk) :=
  if req.sender_id ≠ st.my_info.server.node_id then
    .error "Sender NodeId is changed"
  else if req.begin_lsn = END_OF_STREAM then
    .ok none
  else
    let start_pos := req.begin_lsn
    let end_pos := req.end_lsn
    let rec_size := (end_pos + u64max - start_pos) % u64max
    if rec_size > MAX_SEND_SIZE then
      .error "assertion failed: rec_size <= MAX_SEND_SIZE"
    else
      let fs2 := writeWalFile fs start_pos wal_seg_size (body.take rec_size)
      let info1 := { st.my_info with
                     restart_lsn := req.restart_lsn, commit_lsn := req.commit_lsn }
      let epochSwitch : Bool :=
        decide (info1.epoch < prop.epoch ∧ end_pos > max info1.flush_lsn prop.vcl)
      let info2 := if epochSwitch then { info1 with epoch := prop.epoch } else info1
      let info3 := if end_pos > info2.flush_lsn then { info2 with flush_lsn := end_pos }
                   else info2
      let sync : Bool :=
        epochSwitch || decide (st.flushed_restart_lsn + wal_seg_size < info3.restart_lsn)
      let flushed2 := if sync then info3.restart_lsn else st.flushed_restart_lsn
      .ok (some ⟨⟨info3, flushed2⟩, fs2, sync,
        ⟨info3.epoch, end_pos, hsf⟩, min req.commit_lsn end_pos⟩)

/-! ### Egress: `IDENTIFY_SYSTEM` -/

/-- Uppercase hex digit, as produced by Rust's `{:X}` formatting. -/
def hexDigit (n : Nat) : Char :=
  if n < 10 then Char.ofNat (48 + n) else Char.ofNat (55 + n)

def hexCharsAux : Nat → Nat → List Char
  | 0, _ => []
  | fuel + 1, n =>
    if n = 0 then [] else hexCharsAux fuel (n / 16) ++ [hexDigit (n % 16)]

/-- Digits of `n` in base 16, most significant first (`fuel`-bounded
division loop; `fuel = n` always suffices since `n / 16 < n`). -/
def hexChars (n : Nat) : List Char := hexCharsAux n n

/-- `{:X}` formatting of a nonnegative integer. -/
def toHexUpper (n : Nat) : List Char :=
  if n = 0 then ['0'] else hexChars n

/-- `{:>08X}`: zero-pad on the left to width 8. -/
def padZero8 (s : List Char) : List Char :=
  List.replicate (8 - s.length) '0' ++ s

/-- `format!("{:X}/{:>08X}", (lsn >> 32) as u32, lsn as u32)`. -/
def fmtLsn (lsn : Nat) : List Char :=
  toHexUpper (lsn / u32max % u32max) ++ ['/'] ++ padZero8 (toHexUpper (lsn % u32max))

/-- Backend messages emitted by `handle_identify_system`, keeping the column
names of the row description and the textual row values. -/
inductive BeMessage where
  | RowDescription (cols : List String)
  | DataRow (vals : List (Option String))
  | CommandComplete (cmd : String)
  | ReadyForQuery
  deriving DecidableEq, Repr

/-- `Connection::handle_identify_system` (lines 860-905): `wal_end` and
`timeline` come from `find_end_of_wal(false)`, `system_id` from the tenant
info.  The message sequence is modelled with the exact row-description
column order and the exact data-row value order of the source. -/
def handleIdentifySystem (wal_end timeline system_id : Nat) : List BeMessage :=
  let lsn := String.mk (fmtLsn wal_end)
  let tli := Nat.repr timeline
  let sysid := Nat.repr system_id
  [ .RowDescription ["systemid", "timeline", "xlogpos", "dbname"],
    .DataRow [some lsn, some tli, some sysid, none],
    .CommandComplete "IDENTIFY_SYSTEM",
    .ReadyForQuery ]

/-! ### Egress: LSN parsing (`parse_hex_str`, `handle_start_replication`) -/

/-- Value of one hex digit, accepting `0-9`, `a-f`, `A-F` as
`u32::from_str_radix(_, 16)` does. -/
def hexDigitVal (c : Char) : Option Nat :=
  if '0' ≤ c ∧ c ≤ '9' then some (c.toNat - 48)
  else if 'a' ≤ c ∧ c ≤ 'f' then some (c.toNat - 87)
  else if 'A' ≤ c ∧ c ≤ 'F' then some (c.toNat - 55)
  else none

/-- Digit loop of `u32::from_str_radix(s, 16)`: accumulate left to right,
failing on a non-digit or on overflow past `u32::MAX`. -/
def fromStrRadix16Digits : Nat → List Char → Option Nat
  | acc, [] => some acc
  | acc, c :: cs =>
    match hexDigitVal c with
    | none => none
    | some d =>
      if acc * 16 + d < u32max then fromStrRadix16Digits (acc * 16 + d) cs
      else none

/-- `u32::from_str_radix(s, 16)`: an optional leading `+`, then at least one
hex digit, value below `2^32`. -/
def fromStrRadix16 (s : List Char) : Option Nat :=
  match s with
  | [] => none
  | c :: rest =>
    if c = '+' then (if rest.isEmpty then none else fromStrRadix16Digits 0 rest)
    else fromStrRadix16Digits 0 (c :: rest)

/-- `parse_hex_str` (lines 185-192): wraps the `u32` parse, widening the
result to `u64` and reporting an `io::Error` on failure. -/
def parse_hex_str (s : List Char) : Except String Nat :=
  match fromStrRadix16 s with
  | some v => Except.ok v
  | none => Except.error "Invalid hex number"

/-- LSN assembly in `handle_start_replication` (line 914):
`(parse_hex_str(hi)? << 32) | parse_hex_str(lo)?`; any parse error
propagates with `?` and terminates the egress connection. -/
def parseLsnPair (hi lo : List Char) : Except String Nat := do
  let h ← parse_hex_str hi
  let l ← parse_hex_str lo
  pure ((h <<< 32) ||| l)

/-- Modelled from the spec: the set of strings that "parse as a u32 in base
16" — an optional leading `+`, then a nonempty run of hex digits whose
value fits in 32 bits.  Used as the specification side of claim C10. -/
def stripPlus (s : List Char) : List Char :=
  match s with
  | [] => []
  | c :: rest => if c = '+' then rest else c :: rest

def hexStrVal (s : List Char) : Nat :=
  s.foldl (fun a c => a * 16 + (hexDigitVal c).getD 0) 0

def parsesAsU32Hex (s : List Char) : Prop :=
  stripPlus s ≠ [] ∧ (∀ c ∈ stripPlus s, (hexDigitVal c).isSome = true) ∧
  hexStrVal (stripPlus s) < u32max

instance : DecidablePred parsesAsU32Hex := fun _ => by
  unfold parsesAsU32Hex; infer_instance

/-! ## Theorems -/

theorem leBytes_length (w n : Nat) : (leBytes w n).length = w := by
  induction w generalizing n with
  | zero => rfl
  | succ w ih => simp [leBytes, ih]

theorem beBytes_length (w n : Nat) : (beBytes w n).length = w := by
  induction w generalizing n with
  | zero => rfl
  | succ w ih => simp [beBytes, ih]

/-- Splitting a remainder: `n % (a * k) = a * (n / a % k) + n % a`. -/
theorem mod_mul_split (n a k : Nat) :
    n % (a * k) = a * (n / a % k) + n % a := by
  conv_lhs => rw [← Nat.div_add_mod (n % (a * k)) a]
  rw [Nat.mod_mul_right_div_self, Nat.mod_mod_of_dvd n ⟨k, rfl⟩]

theorem readLE_leBytes (w : Nat) :
    ∀ (n : Nat) (r : List Nat), readLE w (leBytes w n ++ r) = (n % 256 ^ w, r) := by
  induction w with
  | zero => intro n r; simp [readLE, leBytes, Nat.mod_one]
  | succ w ih =>
    intro n r
    have hstep : readLE (w + 1) (leBytes (w + 1) n ++ r)
        = (n % 256 + 256 * (n / 256 % 256 ^ w), r) := by
      rw [leBytes, List.cons_append, readLE, ih (n / 256) r]
    rw [hstep]
    have hpow : (256 : Nat) ^ (w + 1) = 256 * 256 ^ w := by ring
    have hsplit : n % (256 * 256 ^ w) = 256 * (n / 256 % 256 ^ w) + n % 256 :=
      mod_mul_split n 256 (256 ^ w)
    rw [hpow, hsplit]
    rw [Nat.add_comm]

theorem readBEAux_beBytes (w : Nat) :
    ∀ (acc n : Nat) (r : List Nat),
      readBEAux acc w (beBytes w n ++ r) = (acc * 256 ^ w + n % 256 ^ w, r) := by
  induction w with
  | zero => intro acc n r; simp [readBEAux, beBytes, Nat.mod_one]
  | succ w ih =>
    intro acc n r
    have hstep : readBEAux acc (w + 1) (beBytes (w + 1) n ++ r)
        = ((acc * 256 + n / 256 ^ w % 256) * 256 ^ w + n % 256 ^ w, r) := by
      rw [beBytes, List.cons_append]
      show readBEAux (acc * 256 + n / 256 ^ w % 256) w (beBytes w n ++ r) = _
      rw [ih]
    rw [hstep]
    have hpow : (256 : Nat) ^ (w + 1) = 256 ^ w * 256 := by ring
    have hsplit : n % (256 ^ w * 256) = 256 ^ w * (n / 256 ^ w % 256) + n % 256 ^ w :=
      mod_mul_split n (256 ^ w) 256
    rw [hpow, hsplit]
    congr 1
    ring

theorem readBE_beBytes (w n : Nat) (r : List Nat) :
    readBE w (beBytes w n ++ r) = (n % 256 ^ w, r) := by
  simp [readBE, readBEAux_beBytes]

theorem pow256_four : (256 : Nat) ^ 4 = u32max := by norm_num [u32max]
theorem pow256_eight : (256 : Nat) ^ 8 = u64max := by norm_num [u64max]
theorem pow256_sixteen : (256 : Nat) ^ 16 = u128max := by norm_num [u128max]

/-! Round trips, each stated with an arbitrary byte tail `r` so that the
lemmas compose through nested records. -/

theorem unpack_pack_NodeId (x : NodeId) (h : x.wf) (r : List Nat) :
    NodeId.unpack (x.pack ++ r) = (x, r) := by
  obtain ⟨ht, hu⟩ := h
  rw [NodeId.pack, NodeId.unpack, List.append_assoc]
  rw [readLE_leBytes]
  simp only
  rw [readBE_beBytes]
  simp only [pow256_four, pow256_eight, pow256_sixteen, Nat.mod_eq_of_lt ht, Nat.mod_eq_of_lt hu]

theorem unpack_pack_ServerInfo (x : ServerInfo) (h : x.wf) (r : List Nat) :
    ServerInfo.unpack (x.pack ++ r) = (x, r) := by
  obtain ⟨h1, h2, h3, h4, h5, h6, h7⟩ := h
  rw [ServerInfo.pack, ServerInfo.unpack]
  simp only [List.append_assoc]
  rw [readLE_leBytes]
  simp only
  rw [readLE_leBytes]
  simp only
  rw [unpack_pack_NodeId x.node_id h3]
  simp only
  rw [readLE_leBytes]
  simp only
  rw [readLE_leBytes]
  simp only
  rw [readLE_leBytes]
  simp only
  rw [readLE_leBytes]
  simp only [pow256_four, pow256_eight, pow256_sixteen, Nat.mod_eq_of_lt h1, Nat.mod_eq_of_lt h2, Nat.mod_eq_of_lt h4,
    Nat.mod_eq_of_lt h5, Nat.mod_eq_of_lt h6, Nat.mod_eq_of_lt h7]

theorem unpack_pack_RequestVote (x : RequestVote) (h : x.wf) (r : List Nat) :
    RequestVote.unpack (x.pack ++ r) = (x, r) := by
  obtain ⟨h1, h2, h3⟩ := h
  rw [RequestVote.pack, RequestVote.unpack]
  simp only [List.append_assoc]
  rw [unpack_pack_NodeId x.node_id h1]
  simp only
  rw [readLE_leBytes]
  simp only
  rw [readLE_leBytes]
  simp only [pow256_four, pow256_eight, pow256_sixteen, Nat.mod_eq_of_lt h2, Nat.mod_eq_of_lt h3]

theorem unpack_pack_SafeKeeperInfo (x : SafeKeeperInfo) (h : x.wf) (r : List Nat) :
    SafeKeeperInfo.unpack (x.pack ++ r) = (x, r) := by
  obtain ⟨h1, h2, h3, h4, h5, h6, h7⟩ := h
  rw [SafeKeeperInfo.pack, SafeKeeperInfo.unpack]
  simp only [List.append_assoc]
  rw [readLE_leBytes]
  simp only
  rw [readLE_leBytes]
  simp only
  rw [readLE_leBytes]
  simp only
  rw [unpack_pack_ServerInfo x.server h4]
  simp only
  rw [readLE_leBytes]
  simp only
  rw [readLE_leBytes]
  simp only
  rw [readLE_leBytes]
  simp only [pow256_four, pow256_eight, pow256_sixteen, Nat.mod_eq_of_lt h1, Nat.mod_eq_of_lt h2, Nat.mod_eq_of_lt h3,
    Nat.mod_eq_of_lt h5, Nat.mod_eq_of_lt h6, Nat.mod_eq_of_lt h7]

theorem unpack_pack_HotStandbyFeedback (x : HotStandbyFeedback) (h : x.wf)
    (r : List Nat) : HotStandbyFeedback.unpack (x.pack ++ r) = (x, r) := by
  obtain ⟨h1, h2, h3⟩ := h
  rw [HotStandbyFeedback.pack, HotStandbyFeedback.unpack]
  simp only [List.append_assoc]
  rw [readLE_leBytes]
  simp only
  rw [readLE_leBytes]
  simp only
  rw [readLE_leBytes]
  simp only [pow256_four, pow256_eight, pow256_sixteen, Nat.mod_eq_of_lt h1, Nat.mod_eq_of_lt h2, Nat.mod_eq_of_lt h3]

theorem unpack_pack_SafeKeeperRequest (x : SafeKeeperRequest) (h : x.wf)
    (r : List Nat) : SafeKeeperRequest.unpack (x.pack ++ r) = (x, r) := by
  obtain ⟨h1, h2, h3, h4, h5⟩ := h
  rw [SafeKeeperRequest.pack, SafeKeeperRequest.unpack]
  simp only [List.append_assoc]
  rw [unpack_pack_NodeId x.sender_id h1]
  simp only
  rw [readLE_leBytes]
  simp only
  rw [readLE_leBytes]
  simp only
  rw [readLE_leBytes]
  simp only
  rw [readLE_leBytes]
  simp only [pow256_four, pow256_eight, pow256_sixteen, Nat.mod_eq_of_lt h2, Nat.mod_eq_of_lt h3, Nat.mod_eq_of_lt h4,
    Nat.mod_eq_of_lt h5]

theorem unpack_pack_SafeKeeperResponse (x : SafeKeeperResponse) (h : x.wf)
    (r : List Nat) : SafeKeeperResponse.unpack (x.pack ++ r) = (x, r) := by
  obtain ⟨h1, h2, h3⟩ := h
  rw [SafeKeeperResponse.pack, SafeKeeperResponse.unpack]
  simp only [List.append_assoc]
  rw [readLE_leBytes]
  simp only
  rw [readLE_leBytes]
  simp only
  rw [unpack_pack_HotStandbyFeedback x.hs_feedback h3]
  simp only [pow256_four, pow256_eight, pow256_sixteen, Nat.mod_eq_of_lt h1, Nat.mod_eq_of_lt h2]

/-! ### Helper lemmas -/

theorem notify_foldl_mono (l : List Nat) :
    ∀ c : Nat, c ≤ l.foldl (fun s x => (notifyWalSenders s x).1) c := by
  induction l with
  | nil => intro c; simp
  | cons x xs ih =>
    intro c
    have h1 : c ≤ (notifyWalSenders c x).1 := by
      unfold notifyWalSenders
      split
      · rename_i h; simp; omega
      · simp
    exact le_trans h1 (ih _)

/-! ### Claim theorems -/

/-- C5: for every record type of the wire protocol and every value `x` of
that type (fields within machine-integer range), `unpack (pack x) = x`
with the whole buffer consumed. -/
theorem serializer_roundtrip :
    (∀ x : NodeId, x.wf → NodeId.unpack x.pack = (x, [])) ∧
    (∀ x : ServerInfo, x.wf → ServerInfo.unpack x.pack = (x, [])) ∧
    (∀ x : RequestVote, x.wf → RequestVote.unpack x.pack = (x, [])) ∧
    (∀ x : SafeKeeperInfo, x.wf → SafeKeeperInfo.unpack x.pack = (x, [])) ∧
    (∀ x : SafeKeeperRequest, x.wf → SafeKeeperRequest.unpack x.pack = (x, [])) ∧
    (∀ x : SafeKeeperResponse, x.wf → SafeKeeperResponse.unpack x.pack = (x, [])) ∧
    (∀ x : HotStandbyFeedback, x.wf → HotStandbyFeedback.unpack x.pack = (x, [])) := by
  refine ⟨fun x h => ?_, fun x h => ?_, fun x h => ?_, fun x h => ?_,
    fun x h => ?_, fun x h => ?_, fun x h => ?_⟩
  · have h2 := unpack_pack_NodeId x h []; rwa [List.append_nil] at h2
  · have h2 := unpack_pack_ServerInfo x h []; rwa [List.append_nil] at h2
  · have h2 := unpack_pack_RequestVote x h []; rwa [List.append_nil] at h2
  · have h2 := unpack_pack_SafeKeeperInfo x h []; rwa [List.append_nil] at h2
  · have h2 := unpack_pack_SafeKeeperRequest x h []; rwa [List.append_nil] at h2
  · have h2 := unpack_pack_SafeKeeperResponse x h []; rwa [List.append_nil] at h2
  · have h2 := unpack_pack_HotStandbyFeedback x h []; rwa [List.append_nil] at h2

/-- Witness for C5: the round trip evaluated at one concrete value of each
record type. -/
theorem serializer_roundtrip_witness :
    NodeId.unpack (NodeId.pack ⟨7, 170⟩) = (⟨7, 170⟩, []) ∧
    ServerInfo.unpack (ServerInfo.pack ⟨1, 150000, ⟨7, 170⟩, 42, 0, 1, 16777216⟩)
      = (⟨1, 150000, ⟨7, 170⟩, 42, 0, 1, 16777216⟩, []) ∧
    RequestVote.unpack (RequestVote.pack ⟨⟨7, 170⟩, 0, 1⟩) = (⟨⟨7, 170⟩, 0, 1⟩, []) ∧
    SafeKeeperInfo.unpack (SafeKeeperInfo.pack
        ⟨3405432559, 1, 0, ⟨1, 150000, ⟨7, 170⟩, 42, 0, 1, 16777216⟩, 0, 0, 0⟩)
      = (⟨3405432559, 1, 0, ⟨1, 150000, ⟨7, 170⟩, 42, 0, 1, 16777216⟩, 0, 0, 0⟩, []) ∧
    SafeKeeperRequest.unpack (SafeKeeperRequest.pack ⟨⟨7, 170⟩, 8192, 16384, 1, 2⟩)
      = (⟨⟨7, 170⟩, 8192, 16384, 1, 2⟩, []) ∧
    SafeKeeperResponse.unpack (SafeKeeperResponse.pack ⟨1, 8192, ⟨0, 5, 6⟩⟩)
      = (⟨1, 8192, ⟨0, 5, 6⟩⟩, []) ∧
    HotStandbyFeedback.unpack (HotStandbyFeedback.pack ⟨0, 5, 6⟩) = (⟨0, 5, 6⟩, []) :=
  ⟨serializer_roundtrip.1 _ (by decide),
   serializer_roundtrip.2.1 _ (by decide),
   serializer_roundtrip.2.2.1 _ (by decide),
   serializer_roundtrip.2.2.2.1 _ (by decide),
   serializer_roundtrip.2.2.2.2.1 _ (by decide),
   serializer_roundtrip.2.2.2.2.2.1 _ (by decide),
   serializer_roundtrip.2.2.2.2.2.2 _ (by decide)⟩

/-- C2 (counterexample): with `a = (term 1, uuid 0)` and
`b = (term 0, uuid 1)`, the packed byte strings compare `pack a < pack b`
under memcmp order (the little-endian `uuid` bytes come first), while the
semantic `(term, uuid)` order has `b < a` — so byte order and semantic
order disagree, refuting the claimed equivalence. -/
theorem nodeid_pack_order_mismatch :
    bytesLt (NodeId.pack ⟨1, 0⟩) (NodeId.pack ⟨0, 1⟩) ∧
    ¬ NodeId.lt ⟨1, 0⟩ ⟨0, 1⟩ ∧
    NodeId.lt ⟨0, 1⟩ ⟨1, 0⟩ ∧
    (⟨1, 0⟩ : NodeId).wf ∧ (⟨0, 1⟩ : NodeId).wf := by
  decide

/-- C1: after merging the received `ServerInfo` (which preserves the stored
`node_id`), a `RequestVote` whose `node_id` is below the stored one under
the term-then-uuid order is rejected by sending back the stored `node_id`
with no control-file write, while any other vote is accepted: the
`node_id` is replaced by `prop.node_id`, the control file saved with
`sync = true`, and `prop.node_id` echoed. -/
theorem vote_handshake (stored : SafeKeeperInfo) (srv : ServerInfo)
    (prop : RequestVote) :
    (mergeServerInfo stored srv).server.node_id = stored.server.node_id ∧
    (NodeId.lt prop.node_id stored.server.node_id →
      voteStage (mergeServerInfo stored srv) prop
        = .reject stored.server.node_id.pack) ∧
    (¬ NodeId.lt prop.node_id stored.server.node_id →
      ∃ ni, voteStage (mergeServerInfo stored srv) prop
          = .accept ni true prop.node_id.pack ∧
        ni.server.node_id = prop.node_id) := by
  refine ⟨rfl, fun hlt => ?_, fun hge => ?_⟩
  · have hcond : NodeId.lt prop.node_id (mergeServerInfo stored srv).server.node_id := hlt
    unfold voteStage
    rw [if_pos hcond]
    rfl
  · have hcond : ¬ NodeId.lt prop.node_id (mergeServerInfo stored srv).server.node_id := hge
    unfold voteStage
    rw [if_neg hcond]
    exact ⟨_, rfl, rfl⟩

/-- Witness for C1: the vote-reject scenario of the spec (stored node
`(9, 0)`, candidate `(8, 0)`) and a vote-accept scenario (candidate
`(9, 1)`), both evaluated concretely. -/
theorem vote_handshake_witness :
    (voteStage (mergeServerInfo
        ⟨3405432559, 1, 0, ⟨1, 150000, ⟨9, 0⟩, 42, 0, 1, 16777216⟩, 0, 0, 0⟩
        ⟨1, 150000, ⟨8, 0⟩, 42, 0, 1, 16777216⟩)
        ⟨⟨8, 0⟩, 0, 1⟩
      = .reject (NodeId.pack ⟨9, 0⟩)) ∧
    (∃ ni, voteStage (mergeServerInfo
        ⟨3405432559, 1, 0, ⟨1, 150000, ⟨9, 0⟩, 42, 0, 1, 16777216⟩, 0, 0, 0⟩
        ⟨1, 150000, ⟨9, 1⟩, 42, 0, 1, 16777216⟩)
        ⟨⟨9, 1⟩, 0, 1⟩
        = .accept ni true (NodeId.pack ⟨9, 1⟩) ∧
      ni.server.node_id = ⟨9, 1⟩) :=
  ⟨(vote_handshake _ _ _).2.1 (by decide),
   (vote_handshake _ _ _).2.2 (by decide)⟩

/-- C6: `notify_wal_senders` updates the shared `commit_lsn` and broadcasts
exactly when the new value is larger, leaves it unchanged otherwise, and is
monotone: no sequence of calls ever decreases `commit_lsn`. -/
theorem notify_wal_senders_spec :
    ∀ c n : Nat,
      (((notifyWalSenders c n).1 = n ∧ (notifyWalSenders c n).2 = true) ↔ n > c) ∧
      (¬ n > c → notifyWalSenders c n = (c, false)) ∧
      c ≤ (notifyWalSenders c n).1 ∧
      ∀ l : List Nat, c ≤ l.foldl (fun s x => (notifyWalSenders s x).1) c := by
  intro c n
  refine ⟨?_, fun h => ?_, ?_, fun l => notify_foldl_mono l c⟩
  · unfold notifyWalSenders
    constructor
    · intro h
      by_contra hn
      rw [if_neg hn] at h
      exact absurd h.2 (by simp)
    · intro h
      rw [if_pos h]
      exact ⟨rfl, rfl⟩
  · unfold notifyWalSenders
    rw [if_neg h]
  · unfold notifyWalSenders
    split <;> omega

/-- Witness for C6: concrete calls, both the updating and the ignoring
case, plus a fold over a concrete call sequence. -/
theorem notify_wal_senders_spec_witness :
    ((notifyWalSenders 3 5).1 = 5 ∧ (notifyWalSenders 3 5).2 = true) ∧
    notifyWalSenders 5 4 = (5, false) ∧
    (3 : Nat) ≤ [1, 7, 2].foldl (fun s x => (notifyWalSenders s x).1) 3 :=
  ⟨((notify_wal_senders_spec 3 5).1).2 (by decide),
   ((notify_wal_senders_spec 5 4).2.1) (by decide),
   ((notify_wal_senders_spec 3 0).2.2.2) [1, 7, 2]⟩

/-- C3: in the streaming loop, `my_info.epoch` is set to `prop.epoch` (with
the control-file write forced to fsync) exactly when
`my_info.epoch < prop.epoch` and `end_pos > max(my_info.flush_lsn,
prop.vcl)` held when the request was processed; otherwise the epoch is
unchanged. -/
theorem epoch_switch_iff (prop : RequestVote) (wal_seg_size : Nat)
    (hsf : HotStandbyFeedback) (st : IngestState) (fs : FS)
    (req : SafeKeeperRequest) (body : List Nat) (ok : StepOk)
    (h : receiveWalStep prop wal_seg_size hsf st fs req body
      = Except.ok (some ok)) :
    ((st.my_info.epoch < prop.epoch ∧
        req.end_lsn > max st.my_info.flush_lsn prop.vcl) →
      ok.st.my_info.epoch = prop.epoch ∧ ok.synced = true) ∧
    (¬ (st.my_info.epoch < prop.epoch ∧
        req.end_lsn > max st.my_info.flush_lsn prop.vcl) →
      ok.st.my_info.epoch = st.my_info.epoch) := by
  dsimp only [receiveWalStep] at h
  by_cases h1 : req.sender_id ≠ st.my_info.server.node_id
  · rw [if_pos h1] at h; simp at h
  · rw [if_neg h1] at h
    by_cases h2 : req.begin_lsn = END_OF_STREAM
    · rw [if_pos h2] at h; simp at h
    · rw [if_neg h2] at h
      by_cases h3 : (req.end_lsn + u64max - req.begin_lsn) % u64max > MAX_SEND_SIZE
      · rw [if_pos h3] at h; simp at h
      · rw [if_neg h3] at h
        simp only [Except.ok.injEq, Option.some.injEq] at h
        subst h
        refine ⟨fun hc => ⟨?_, ?_⟩, fun hc => ?_⟩
        · dsimp only
          simp only [apply_ite SafeKeeperInfo.epoch, decide_eq_true_eq, hc.1,
            hc.2, and_true, true_and, and_self, if_true, ite_self]
        · dsimp only
          simp [hc]
        · dsimp only
          simp only [apply_ite SafeKeeperInfo.epoch, decide_eq_true_eq, hc,
            if_false, ite_self]

/-- Witness for C3: the spec's ingest-plus-epoch-switch scenario — epoch 0,
vote epoch 1, first request writes `[0, 8192)` so `8192 > max 0 0`; the
result has `epoch = 1` and a synced control file. -/
theorem epoch_switch_iff_witness :
    ∃ ok : StepOk,
      receiveWalStep ⟨⟨7, 170⟩, 0, 1⟩ 16777216 ⟨0, 5, 6⟩
        ⟨⟨3405432559, 1, 0, ⟨1, 150000, ⟨7, 170⟩, 42, 0, 1, 16777216⟩, 0, 0, 0⟩, 0⟩
        (fun _ => none) ⟨⟨7, 170⟩, 8192, 16384, 0, 0⟩ []
        = Except.ok (some ok) ∧
      ok.st.my_info.epoch = 1 ∧ ok.synced = true := by
  obtain ⟨okv, hok⟩ : ∃ okv, receiveWalStep ⟨⟨7, 170⟩, 0, 1⟩ 16777216 ⟨0, 5, 6⟩
      ⟨⟨3405432559, 1, 0, ⟨1, 150000, ⟨7, 170⟩, 42, 0, 1, 16777216⟩, 0, 0, 0⟩, 0⟩
      (fun _ => none) ⟨⟨7, 170⟩, 8192, 16384, 0, 0⟩ []
      = Except.ok (some okv) := ⟨_, rfl⟩
  have hres := (epoch_switch_iff _ _ _ _ _ _ _ _ hok).1 (by constructor <;> decide)
  exact ⟨okv, hok, hres.1, hres.2⟩

/-- C9: the control file is fsynced on a request exactly when the
epoch-switch condition held or
`flushed_restart_lsn + wal_seg_size < my_info.restart_lsn` (the latter
computed with the just-received `req.restart_lsn`), and
`flushed_restart_lsn` advances to `my_info.restart_lsn` exactly on the
requests where an fsync occurred. -/
theorem lazy_restart_fsync (prop : RequestVote) (wal_seg_size : Nat)
    (hsf : HotStandbyFeedback) (st : IngestState) (fs : FS)
    (req : SafeKeeperRequest) (body : List Nat) (ok : StepOk)
    (h : receiveWalStep prop wal_seg_size hsf st fs req body
      = Except.ok (some ok)) :
    (ok.synced = true ↔
      ((st.my_info.epoch < prop.epoch ∧
          req.end_lsn > max st.my_info.flush_lsn prop.vcl) ∨
        st.flushed_restart_lsn + wal_seg_size < req.restart_lsn)) ∧
    ok.st.flushed_restart_lsn
      = (if ok.synced = true then req.restart_lsn else st.flushed_restart_lsn) ∧
    ok.st.my_info.restart_lsn = req.restart_lsn := by
  dsimp only [receiveWalStep] at h
  by_cases h1 : req.sender_id ≠ st.my_info.server.node_id
  · rw [if_pos h1] at h; simp at h
  · rw [if_neg h1] at h
    by_cases h2 : req.begin_lsn = END_OF_STREAM
    · rw [if_pos h2] at h; simp at h
    · rw [if_neg h2] at h
      by_cases h3 : (req.end_lsn + u64max - req.begin_lsn) % u64max > MAX_SEND_SIZE
      · rw [if_pos h3] at h; simp at h
      · rw [if_neg h3] at h
        simp only [Except.ok.injEq, Option.some.injEq] at h
        subst h
        dsimp only
        simp only [apply_ite SafeKeeperInfo.restart_lsn, ite_self,
          Bool.or_eq_true, decide_eq_true_eq, and_self, and_true, true_and]

/-- Witness for C9: a request advancing `restart_lsn` past a full segment
(segment size 16 MiB, `restart_lsn` 20 MiB) with the epoch condition false
(epochs equal): the fsync fires and `flushed_restart_lsn` advances. -/
theorem lazy_restart_fsync_witness :
    ∃ ok : StepOk,
      receiveWalStep ⟨⟨7, 170⟩, 0, 1⟩ 16777216 ⟨0, 5, 6⟩
        ⟨⟨3405432559, 1, 1, ⟨1, 150000, ⟨7, 170⟩, 42, 0, 1, 16777216⟩, 0, 0, 0⟩, 0⟩
        (fun _ => none) ⟨⟨7, 170⟩, 8192, 16384, 20971520, 0⟩ []
        = Except.ok (some ok) ∧
      ok.synced = true ∧ ok.st.flushed_restart_lsn = 20971520 ∧
      ok.st.my_info.restart_lsn = 20971520 := by
  obtain ⟨okv, hok⟩ : ∃ okv, receiveWalStep ⟨⟨7, 170⟩, 0, 1⟩ 16777216 ⟨0, 5, 6⟩
      ⟨⟨3405432559, 1, 1, ⟨1, 150000, ⟨7, 170⟩, 42, 0, 1, 16777216⟩, 0, 0, 0⟩, 0⟩
      (fun _ => none) ⟨⟨7, 170⟩, 8192, 16384, 20971520, 0⟩ []
      = Except.ok (some okv) := ⟨_, rfl⟩
  obtain ⟨hiff, hfl, hres⟩ := lazy_restart_fsync _ _ _ _ _ _ _ _ hok
  have hsync : okv.synced = true := hiff.mpr (Or.inr (by decide))
  refine ⟨okv, hok, hsync, ?_, hres⟩
  rw [hfl, if_pos hsync]

/-- C8: an oversize WAL batch — `end_lsn - begin_lsn` (computed with u64
wrap-around) larger than `MAX_SEND_SIZE = 16 * 8 KiB = 128 KiB` — makes the
streaming-loop iteration fail with the assertion error before any WAL byte
is written or any state is updated; the error is connection-fatal, not a
tenant-state mutation. -/
theorem oversize_batch_fatal (prop : RequestVote) (wal_seg_size : Nat)
    (hsf : HotStandbyFeedback) (st : IngestState) (fs : FS)
    (req : SafeKeeperRequest) (body : List Nat)
    (hsender : req.sender_id = st.my_info.server.node_id)
    (hbegin : req.begin_lsn ≠ 0)
    (hble : req.begin_lsn ≤ req.end_lsn) (hlt : req.end_lsn < u64max)
    (hover : req.end_lsn - req.begin_lsn > 16 * XLOG_BLCKSZ) :
    receiveWalStep prop wal_seg_size hsf st fs req body
      = Except.error "assertion failed: rec_size <= MAX_SEND_SIZE" ∧
    MAX_SEND_SIZE = 131072 := by
  refine ⟨?_, by decide⟩
  have hu : u64max = 18446744073709551616 := by norm_num [u64max]
  have hrec : (req.end_lsn + u64max - req.begin_lsn) % u64max
      = req.end_lsn - req.begin_lsn := by
    rw [hu]
    rw [hu] at hlt
    omega
  have hcond : (req.end_lsn + u64max - req.begin_lsn) % u64max > MAX_SEND_SIZE := by
    rw [hrec]
    have hm : MAX_SEND_SIZE = 131072 := by decide
    have h16 : 16 * XLOG_BLCKSZ = 131072 := by decide
    omega
  have hb2 : req.begin_lsn ≠ END_OF_STREAM := hbegin
  dsimp only [receiveWalStep]
  rw [if_neg (by simp [hsender]), if_neg hb2, if_pos hcond]

/-- Witness for C8: a request claiming a 1 MiB payload (`[8192, 1056768)`,
1 048 576 bytes > 131 072) is rejected with the assertion error. -/
theorem oversize_batch_fatal_witness :
    receiveWalStep ⟨⟨7, 170⟩, 0, 1⟩ 16777216 ⟨0, 5, 6⟩
      ⟨⟨3405432559, 1, 0, ⟨1, 150000, ⟨7, 170⟩, 42, 0, 1, 16777216⟩, 0, 0, 0⟩, 0⟩
      (fun _ => none) ⟨⟨7, 170⟩, 8192, 1056768, 0, 0⟩ []
      = Except.error "assertion failed: rec_size <= MAX_SEND_SIZE" ∧
    MAX_SEND_SIZE = 131072 :=
  oversize_batch_fatal _ _ _ _ _ _ _ (by decide) (by decide) (by decide)
    (by decide) (by decide)

theorem hexfold_ge (l : List Char) :
    ∀ a : Nat, a ≤ l.foldl (fun a c => a * 16 + (hexDigitVal c).getD 0) a := by
  induction l with
  | nil => intro a; simp
  | cons c cs ih =>
    intro a
    have h1 : a ≤ a * 16 + (hexDigitVal c).getD 0 := by omega
    calc a ≤ a * 16 + (hexDigitVal c).getD 0 := h1
      _ ≤ _ := by simpa using ih (a * 16 + (hexDigitVal c).getD 0)

theorem fromStrRadix16Digits_eq (l : List Char) :
    ∀ acc, acc < u32max →
      fromStrRadix16Digits acc l =
        if (∀ c ∈ l, (hexDigitVal c).isSome = true) ∧
            l.foldl (fun a c => a * 16 + (hexDigitVal c).getD 0) acc < u32max
        then some (l.foldl (fun a c => a * 16 + (hexDigitVal c).getD 0) acc)
        else none := by
  induction l with
  | nil =>
    intro acc hacc
    simp [fromStrRadix16Digits, hacc]
  | cons c cs ih =>
    intro acc hacc
    rw [fromStrRadix16Digits]
    cases hd : hexDigitVal c with
    | none => simp [hd]
    | some d =>
      dsimp only
      by_cases hov : acc * 16 + d < u32max
      · rw [if_pos hov, ih _ hov]
        simp [hd]
      · rw [if_neg hov]
        rw [if_neg]
        rintro ⟨-, hB⟩
        rw [List.foldl_cons] at hB
        simp only [hd, Option.getD_some] at hB
        have hge := hexfold_ge cs (acc * 16 + d)
        omega

theorem fromStrRadix16_eq (s : List Char) :
    fromStrRadix16 s =
      if parsesAsU32Hex s then some (hexStrVal (stripPlus s)) else none := by
  cases s with
  | nil => simp [fromStrRadix16, parsesAsU32Hex, stripPlus]
  | cons c cs =>
    by_cases hc : c = '+'
    · subst hc
      rw [fromStrRadix16, if_pos rfl]
      cases cs with
      | nil => simp [parsesAsU32Hex, stripPlus]
      | cons c2 cs2 =>
        rw [if_neg (by simp)]
        rw [fromStrRadix16Digits_eq _ 0 (by norm_num [u32max])]
        simp [parsesAsU32Hex, stripPlus, hexStrVal]
    · rw [fromStrRadix16, if_neg hc]
      rw [fromStrRadix16Digits_eq _ 0 (by norm_num [u32max])]
      simp [parsesAsU32Hex, stripPlus, hexStrVal, hc]

theorem parse_hex_str_eq (s : List Char) :
    parse_hex_str s =
      if parsesAsU32Hex s then Except.ok (hexStrVal (stripPlus s))
      else Except.error "Invalid hex number" := by
  unfold parse_hex_str
  rw [fromStrRadix16_eq]
  by_cases hP : parsesAsU32Hex s
  · rw [if_pos hP, if_pos hP]
  · rw [if_neg hP, if_neg hP]

/-- C10: each hex half of a START_REPLICATION LSN is parsed as an unsigned
32-bit integer: `parse_hex_str` succeeds exactly on strings of hex digits
(after an optional sign) whose value fits in 32 bits, so an empty capture,
a non-hex character, or a value above `0xFFFFFFFF` yields an error, and any
such error propagates through the LSN-pair assembly and terminates the
egress connection — even though LSNs themselves are 64-bit. -/
theorem parse_hex_u32 (s : List Char) :
    (parse_hex_str s = Except.error "Invalid hex number" ↔ ¬ parsesAsU32Hex s) ∧
    (∀ v, parse_hex_str s = Except.ok v →
      v = hexStrVal (stripPlus s) ∧ v < u32max) ∧
    (∀ lo, parse_hex_str s = Except.error "Invalid hex number" →
      parseLsnPair s lo = Except.error "Invalid hex number") ∧
    (∀ hi v, parse_hex_str hi = Except.ok v →
      parse_hex_str s = Except.error "Invalid hex number" →
      parseLsnPair hi s = Except.error "Invalid hex number") := by
  refine ⟨?_, ?_, ?_, ?_⟩
  · rw [parse_hex_str_eq]
    by_cases hP : parsesAsU32Hex s
    · rw [if_pos hP]
      simp [hP]
    · rw [if_neg hP]
      simp [hP]
  · intro v hv
    rw [parse_hex_str_eq] at hv
    by_cases hP : parsesAsU32Hex s
    · rw [if_pos hP] at hv
      simp only [Except.ok.injEq] at hv
      exact ⟨hv.symm, hv ▸ hP.2.2⟩
    · rw [if_neg hP] at hv
      cases hv
  · intro lo herr
    unfold parseLsnPair
    rw [herr]
    rfl
  · intro hi v hok herr
    unfold parseLsnPair
    rw [hok, herr]
    rfl

/-- Witness for C10: the empty capture, a non-hex string, a 9-hex-digit
value `0x100000000` just past `u32::MAX`, a successful parse, and the
propagation of a parse error through the LSN pair. -/
theorem parse_hex_u32_witness :
    parse_hex_str [] = Except.error "Invalid hex number" ∧
    parse_hex_str ['G'] = Except.error "Invalid hex number" ∧
    parse_hex_str ['1', '0', '0', '0', '0', '0', '0', '0', '0']
      = Except.error "Invalid hex number" ∧
    ((26 : Nat) = hexStrVal (stripPlus ['1', 'A']) ∧ (26 : Nat) < u32max) ∧
    parseLsnPair ['G'] ['0'] = Except.error "Invalid hex number" ∧
    parseLsnPair ['0'] ['G'] = Except.error "Invalid hex number" :=
  ⟨(parse_hex_u32 []).1.mpr (by decide),
   (parse_hex_u32 ['G']).1.mpr (by decide),
   (parse_hex_u32 ['1', '0', '0', '0', '0', '0', '0', '0', '0']).1.mpr (by decide),
   (parse_hex_u32 ['1', 'A']).2.1 26 rfl,
   (parse_hex_u32 ['G']).2.2.1 ['0']
     ((parse_hex_u32 ['G']).1.mpr (by decide)),
   (parse_hex_u32 ['G']).2.2.2 ['0'] 0 rfl
     ((parse_hex_u32 ['G']).1.mpr (by decide))⟩

/-- C7 (refuting evaluation): at `system_id = 42`, `timeline = 1`,
`wal_end = 8192`, the data row of `handle_identify_system` is
`["0/00002000", "1", "42", null]` against the declared column order
`(systemid, timeline, xlogpos, dbname)`: the `systemid` column carries the
formatted LSN and the `xlogpos` column carries the system id, contrary to
the claim (and to the row description the code itself declares). -/
theorem identify_system_row_misordered :
    handleIdentifySystem 8192 1 42 =
      [ BeMessage.RowDescription ["systemid", "timeline", "xlogpos", "dbname"],
        BeMessage.DataRow [some "0/00002000", some "1", some "42", none],
        BeMessage.CommandComplete "IDENTIFY_SYSTEM",
        BeMessage.ReadyForQuery ] ∧
    ("0/00002000" : String) ≠ "42" := by
  exact ⟨by decide, by decide⟩

/-! ### Segment-writer lemmas (claim C4) -/

theorem getD_drop (l : List Nat) :
    ∀ (n i : Nat) (d : Nat), (l.drop n).getD i d = l.getD (n + i) d := by
  induction l with
  | nil => intro n i d; simp
  | cons a l ih =>
    intro n i d
    cases n with
    | zero => simp
    | succ n =>
      rw [List.drop_succ_cons, ih n i d]
      have he : n + 1 + i = (n + i) + 1 := by omega
      rw [he, List.getD_cons_succ]

theorem getD_take (l : List Nat) :
    ∀ (n i : Nat) (d : Nat), i < n → (l.take n).getD i d = l.getD i d := by
  induction l with
  | nil => intro n i d _; simp
  | cons a l ih =>
    intro n i d h
    cases n with
    | zero => omega
    | succ n =>
      rw [List.take_succ_cons]
      cases i with
      | zero => rfl
      | succ i => rw [List.getD_cons_succ, List.getD_cons_succ, ih n i d (by omega)]

theorem writeWalLoop_nil (W : Nat) (fuel : Nat) (fs : FS) (start : Nat) :
    writeWalLoop W fuel fs start [] = fs := by
  cases fuel with
  | zero => rfl
  | succ fuel => simp [writeWalLoop]

theorem writeWalLoop_untouched (W : Nat) :
    ∀ (fuel : Nat) (fs : FS) (start : Nat) (buf : List Nat) (s : Nat),
      s < start / W → writeWalLoop W fuel fs start buf s = fs s := by
  intro fuel
  induction fuel with
  | zero => intro fs start buf s _; rfl
  | succ fuel ih =>
    intro fs start buf s hs
    rw [writeWalLoop]
    by_cases hbuf : buf.isEmpty
    · rw [if_pos hbuf]
    · rw [if_neg hbuf]
      dsimp only [XLogSegmentOffset, XLByteToSeg]
      rw [ih]
      · exact if_neg (Nat.ne_of_lt hs)
      · exact lt_of_lt_of_le hs
          (Nat.div_le_div_right (Nat.le_add_right _ _))

/-- A position strictly inside a segment hits the next boundary exactly when
its segment-relative offset reaches the segment size. -/
theorem add_mod_boundary (W q r : Nat) (hr0 : 0 < r) (hrW : r ≤ W) :
    ((W * q + r) % W = 0 ↔ r = W) := by
  have h1 : W * q + r = r + q * W := by ring
  rw [h1, Nat.add_mul_mod_self_right]
  constructor
  · intro h
    by_contra hne
    have hlt : r < W := lt_of_le_of_ne hrW hne
    rw [Nat.mod_eq_of_lt hlt] at h
    omega
  · intro h
    rw [h]
    exact Nat.mod_self W

/-- Read-back characterization of the `write_wal_file` loop: every written
byte reads back from the buffer, and every other position is unchanged
(with absent segments reading as zero). -/
theorem writeWalLoop_read (W : Nat) (hW : 0 < W) :
    ∀ (fuel : Nat) (fs : FS) (start : Nat) (buf : List Nat), buf.length ≤ fuel →
      ∀ p : Nat,
        readWal (writeWalLoop W fuel fs start buf) W p =
          if start ≤ p ∧ p < start + buf.length then buf.getD (p - start) 0
          else readWal fs W p := by
  intro fuel
  induction fuel with
  | zero =>
    intro fs start buf hlen p
    have hb : buf = [] := List.length_eq_zero.mp (Nat.le_zero.mp hlen)
    subst hb
    rw [writeWalLoop_nil, if_neg (by rw [List.length_nil]; omega)]
  | succ fuel ih =>
    intro fs start buf hlen p
    by_cases hbuf : buf.isEmpty
    · have hb : buf = [] := List.isEmpty_iff.mp hbuf
      subst hb
      rw [writeWalLoop_nil, if_neg (by rw [List.length_nil]; omega)]
    · have hne : buf ≠ [] := fun h => by simp [h] at hbuf
      have hlpos : 0 < buf.length := List.length_pos.mpr hne
      rw [writeWalLoop, if_neg hbuf]
      dsimp only [XLogSegmentOffset, XLByteToSeg]
      set q := start / W with hq
      set xlo := start % W with hxlo
      set c := bytesToWrite W xlo buf.length with hc
      have hx : xlo < W := by rw [hxlo]; exact Nat.mod_lt _ hW
      have hdm : W * q + xlo = start := by rw [hq, hxlo]; exact Nat.div_add_mod start W
      have hcpos : 0 < c := by
        rw [hc]; unfold bytesToWrite; split <;> omega
      have hcbuf : c ≤ buf.length := by
        rw [hc]; unfold bytesToWrite; split <;> omega
      have hcW : xlo + c ≤ W := by
        rw [hc]; unfold bytesToWrite; split <;> omega
      have hlen2 : (buf.drop c).length ≤ fuel := by
        rw [List.length_drop]; omega
      rw [ih _ (start + c) (buf.drop c) hlen2 p]
      rw [List.length_drop]
      by_cases h1 : start + c ≤ p ∧ p < start + c + (buf.length - c)
      · rw [if_pos h1, if_pos (show start ≤ p ∧ p < start + buf.length by omega)]
        rw [getD_drop]
        congr 1
        omega
      · rw [if_neg h1]
        by_cases h2 : start ≤ p ∧ p < start + c
        · rw [if_pos (show start ≤ p ∧ p < start + buf.length by omega)]
          have hple : W * q ≤ p := by omega
          have hdiv : p / W = q := by
            refine Nat.div_eq_of_lt_le (by rw [Nat.mul_comm]; exact hple) ?_
            have he : (q + 1) * W = W * q + W := by ring
            omega
          have hpm := Nat.div_add_mod p W
          rw [hdiv] at hpm
          have hmod : p % W = xlo + (p - start) := by omega
          unfold readWal XLByteToSeg XLogSegmentOffset
          rw [hdiv]
          dsimp only
          rw [if_pos (Eq.refl q)]
          dsimp only
          rw [hmod]
          rw [if_pos (show xlo ≤ xlo + (p - start) ∧
            xlo + (p - start) < xlo + c by constructor <;> omega)]
          have hix : xlo + (p - start) - xlo = p - start := by omega
          rw [hix, getD_take _ _ _ _ (by omega)]
        · rw [if_neg (show ¬ (start ≤ p ∧ p < start + buf.length) by omega)]
          by_cases hdiv : p / W = q
          · have hpm := Nat.div_add_mod p W
            rw [hdiv] at hpm
            have hout : ¬ (xlo ≤ p % W ∧ p % W < xlo + c) := by omega
            unfold readWal XLByteToSeg XLogSegmentOffset
            rw [hdiv]
            dsimp only
            rw [if_pos (Eq.refl q)]
            dsimp only
            rw [if_neg hout]
            unfold openOrCreateSeg
            cases hfs : fs q with
            | some g => simp [hfs]
            | none => simp [hfs]
          · unfold readWal XLByteToSeg XLogSegmentOffset
            dsimp only
            rw [if_neg hdiv]

/-- Rename characterization of the `write_wal_file` loop: a touched segment
that was `.partial` (or freshly created) ends up finalized exactly when the
write reached that segment's end boundary. -/
theorem writeWalLoop_flag (W : Nat) (hW : 0 < W) :
    ∀ (fuel : Nat) (fs : FS) (start : Nat) (buf : List Nat),
      buf.length ≤ fuel → buf ≠ [] →
      ∀ s : Nat, start / W ≤ s → s * W < start + buf.length →
        (∀ g, fs s = some g → g.partialFlag = true) →
        ∃ f, writeWalLoop W fuel fs start buf s = some f ∧
          f.partialFlag = decide (start + buf.length < (s + 1) * W) := by
  intro fuel
  induction fuel with
  | zero =>
    intro fs start buf hlen hne s _ _ _
    exact absurd (List.length_eq_zero.mp (Nat.le_zero.mp hlen)) hne
  | succ fuel ih =>
    intro fs start buf hlen hne s hs1 hs2 hpart
    have hbuf : ¬ buf.isEmpty = true := by simp [List.isEmpty_iff, hne]
    have hlpos : 0 < buf.length := List.length_pos.mpr hne
    rw [writeWalLoop, if_neg hbuf]
    dsimp only [XLogSegmentOffset, XLByteToSeg]
    set q := start / W with hq
    set xlo := start % W with hxlo
    set c := bytesToWrite W xlo buf.length with hc
    have hx : xlo < W := by rw [hxlo]; exact Nat.mod_lt _ hW
    have hdm : W * q + xlo = start := by rw [hq, hxlo]; exact Nat.div_add_mod start W
    have hcpos : 0 < c := by rw [hc]; unfold bytesToWrite; split <;> omega
    have hcbuf : c ≤ buf.length := by rw [hc]; unfold bytesToWrite; split <;> omega
    have hcW : xlo + c ≤ W := by rw [hc]; unfold bytesToWrite; split <;> omega
    have hWq1 : W * (q + 1) = W * q + W := by ring
    have hq1W : (q + 1) * W = W * q + W := by ring
    set F := openOrCreateSeg fs q with hF
    set D := (fun off => if xlo ≤ off ∧ off < xlo + c
      then (buf.take c).getD (off - xlo) 0 else F.data off) with hD
    set FL := (if (start + c) % W = 0 then false else F.partialFlag) with hFL
    set fs2 := (fun s2 => if s2 = q then some (SegFile.mk FL D) else fs s2) with hfs2g
    have hfs2q : fs2 q = some (SegFile.mk FL D) := by
      rw [hfs2g]; exact if_pos rfl
    by_cases hsq : s = q
    · subst hsq
      have hFpart : F.partialFlag = true := by
        rw [hF]; unfold openOrCreateSeg
        cases hfs : fs q with
        | some g => exact hpart g hfs
        | none => rfl
      by_cases hcl : c = buf.length
      · have hdrop : buf.drop c = [] :=
          List.length_eq_zero.mp (by rw [List.length_drop]; omega)
        rw [hdrop, writeWalLoop_nil]
        refine ⟨SegFile.mk FL D, hfs2q, ?_⟩
        dsimp only
        rw [hFL, hFpart]
        have heq : start + c = W * q + (xlo + c) := by omega
        have hbnd := add_mod_boundary W q (xlo + c) (by omega) (by omega)
        rw [heq]
        by_cases hxc : xlo + c = W
        · rw [if_pos (hbnd.mpr hxc)]
          have hnot : ¬ (start + buf.length < (q + 1) * W) := by omega
          simp [hnot]
        · rw [if_neg (fun hh => hxc (hbnd.mp hh))]
          have hyes : start + buf.length < (q + 1) * W := by omega
          simp [hyes]
      · have hcut : xlo + c = W := by
          by_cases hover : xlo + buf.length > W
          · have hcv : c = W - xlo := by
              rw [hc]; unfold bytesToWrite; rw [if_pos hover]
            omega
          · have hcv : c = buf.length := by
              rw [hc]; unfold bytesToWrite; rw [if_neg hover]
            exact absurd hcv hcl
        have hbound : start + c = W * (q + 1) := by omega
        have hdivq : (start + c) / W = q + 1 := by
          rw [hbound]; exact Nat.mul_div_cancel_left _ hW
        rw [writeWalLoop_untouched W fuel fs2 (start + c) (buf.drop c) q
          (by rw [hdivq]; omega)]
        refine ⟨SegFile.mk FL D, hfs2q, ?_⟩
        dsimp only
        have hm0 : (start + c) % W = 0 := by
          rw [hbound]; exact Nat.mul_mod_right W (q + 1)
        rw [hFL, if_pos hm0]
        have hnot : ¬ (start + buf.length < (q + 1) * W) := by omega
        simp [hnot]
    · have hsgt : q < s := lt_of_le_of_ne hs1 (Ne.symm hsq)
      have hle1 : start + c ≤ W * (q + 1) := by omega
      have hle2 : (start + c) / W ≤ s := by
        have h2 : (start + c) / W ≤ W * (q + 1) / W := Nat.div_le_div_right hle1
        rw [Nat.mul_div_cancel_left _ hW] at h2
        omega
      have hsW : W * (q + 1) ≤ W * s := Nat.mul_le_mul_left W (by omega)
      have hmsW : W * s = s * W := Nat.mul_comm _ _
      have hdropne : buf.drop c ≠ [] := by
        intro hd
        have h0 : (buf.drop c).length = 0 := by rw [hd]; rfl
        rw [List.length_drop] at h0
        omega
      have hlen3 : (buf.drop c).length ≤ fuel := by rw [List.length_drop]; omega
      have hs2b : s * W < start + c + (buf.drop c).length := by
        rw [List.length_drop]; omega
      have hpart2 : ∀ g, fs2 s = some g → g.partialFlag = true := by
        intro g hg
        rw [hfs2g] at hg
        simp only [if_neg hsq] at hg
        exact hpart g hg
      obtain ⟨f, hf, hflag⟩ :=
        ih fs2 (start + c) (buf.drop c) hlen3 hdropne s hle2 hs2b hpart2
      refine ⟨f, hf, ?_⟩
      rw [hflag, List.length_drop,
        show start + c + (buf.length - c) = start + buf.length from by omega]

/-- C4: for a successful `write_wal_file(start, buf)` with `wal_seg_size` a
power of two and a multiple of 8 KiB: the written range reads back as
`buf`; chunks are clipped at segment boundaries to
`min(bytes_left, wal_seg_size - xlogoff)`; segments absent before the write
read as zero outside the written range (new segments are pre-zeroed); and a
`.partial` (or fresh) segment ends up under its finalized name exactly when
the write position reached that segment's end boundary. -/
theorem write_wal_file_correct (wal_seg_size : Nat)
    (hpow : ∃ k, wal_seg_size = 2 ^ k) (hblk : XLOG_BLCKSZ ∣ wal_seg_size)
    (fs : FS) (start : Nat) (buf : List Nat) :
    (∀ i, i < buf.length →
      readWal (writeWalFile fs start wal_seg_size buf) wal_seg_size (start + i)
        = buf.getD i 0) ∧
    (∀ xlogoff bytes_left, xlogoff < wal_seg_size →
      bytesToWrite wal_seg_size xlogoff bytes_left
        = min bytes_left (wal_seg_size - xlogoff)) ∧
    (∀ p, fs (XLByteToSeg p wal_seg_size) = none →
      p < start ∨ start + buf.length ≤ p →
      readWal (writeWalFile fs start wal_seg_size buf) wal_seg_size p = 0) ∧
    (buf ≠ [] → ∀ s, XLByteToSeg start wal_seg_size ≤ s →
      s * wal_seg_size < start + buf.length →
      (∀ g, fs s = some g → g.partialFlag = true) →
      ∃ f, writeWalFile fs start wal_seg_size buf s = some f ∧
        f.partialFlag = decide (start + buf.length < (s + 1) * wal_seg_size)) := by
  obtain ⟨k, hk⟩ := hpow
  have hW : 0 < wal_seg_size := by rw [hk]; positivity
  refine ⟨?_, ?_, ?_, ?_⟩
  · intro i hi
    unfold writeWalFile
    rw [writeWalLoop_read wal_seg_size hW buf.length fs start buf (le_refl _)
      (start + i)]
    rw [if_pos (by omega)]
    congr 1
    omega
  · intro xlogoff bl hx
    unfold bytesToWrite
    split <;> omega
  · intro p hnone hout
    unfold writeWalFile
    rw [writeWalLoop_read wal_seg_size hW buf.length fs start buf (le_refl _) p]
    rw [if_neg (by omega)]
    unfold readWal
    rw [hnone]
  · intro hne s hs1 hs2 hpart
    unfold writeWalFile
    exact writeWalLoop_flag wal_seg_size hW buf.length fs start buf (le_refl _)
      hne s hs1 hs2 hpart

/-- Witness for C4: segment size 8192 = 2^13; writing `[1, 2, 3, 4]` at
position 8190 straddles the boundary between segments 0 and 1.  Byte 3
reads back; the first chunk is `min 4 2`; untouched position 5 reads zero;
and segment 0 is finalized because the write reached its boundary. -/
theorem write_wal_file_correct_witness :
    readWal (writeWalFile (fun _ => none) 8190 8192 [1, 2, 3, 4]) 8192 8193 = 4 ∧
    bytesToWrite 8192 8190 4 = min 4 2 ∧
    readWal (writeWalFile (fun _ => none) 8190 8192 [1, 2, 3, 4]) 8192 5 = 0 ∧
    (∃ f, writeWalFile (fun _ => none) 8190 8192 [1, 2, 3, 4] 0 = some f ∧
      f.partialFlag = false) := by
  have h := write_wal_file_correct 8192 ⟨13, by norm_num⟩
    ⟨1, by norm_num [XLOG_BLCKSZ]⟩ (fun _ => none) 8190 [1, 2, 3, 4]
  refine ⟨?_, ?_, ?_, ?_⟩
  · exact h.1 3 (by decide)
  · exact h.2.1 8190 4 (by decide)
  · exact h.2.2.1 5 rfl (by decide)
  · exact h.2.2.2 (by decide) 0 (by decide) (by decide)
      (fun g hg => Option.noConfusion hg)

end WalService
